import Mathlib

/-!
Verification of the consumption/acknowledgment engine and Table of this
repository (src/faust/transport/base.py and src/faust/tables.py), as a
shallow embedding in Lean 4.

Conventions of the embedding:
* Python exceptions are modelled with `Option`/`Except` (a raised
  exception is `none` / `.error e`).
* Python `list.sort()` on integers is modelled by `List.insertionSort (· ≤ ·)`
  (on a totally ordered type with indistinguishable equal elements the
  sorted output is unique, so any correct sort is the same function).
* Python truthiness of an integer is `≠ 0`; of a list, non-emptiness; of an
  optional value, `isSome`.
-/

/-!  ## Consumer offset tracking (src/faust/transport/base.py)  -/

/-- Embedding of the scan loop of `Consumer._new_offset`:

```
for i, offset in enumerate(acked):
    if offset != acked[i - 1]:
        break
else:
    raise IndexError()
return offset
```

The loop walks the list carrying the element `prev = acked[i - 1]` that the
current element is compared with, and returns (Python `break` + `return`)
the first element that differs from `prev`; if no element differs the
`for`/`else` arm raises `IndexError`, modelled as `none`. -/
def gapScan : Int → List Int → Option Int
  | _, [] => none
  | prev, o :: rest => if o ≠ prev then some o else gapScan o rest

/-- Embedding of `Consumer._new_offset` (base.py lines 160-167).  At the
first iteration `i = 0`, the Python index `acked[i - 1] = acked[-1]` wraps
around to the LAST element of the list, so the initial comparison element
for `gapScan` is `acked.getLastD a`; afterwards `acked[i - 1]` is simply the
previous element, which is what `gapScan` carries along.  On the empty list
the loop body never runs and the `for`/`else` arm raises `IndexError`
(`none`). -/
def new_offset (acked : List Int) : Option Int :=
  match acked with
  | [] => none
  | a :: rest => gapScan ((a :: rest).getLastD a) (a :: rest)

/-- Modelled from the spec (§4.2 `next_safe_offset`): starting from the
first entry of the ascending acknowledged sequence, walk forward while each
entry is either equal to (a duplicate) or exactly one greater than the
previous entry; the last entry reached before a gap (or the end) is the
safe offset. -/
def safeWalk (cur : Int) : List Int → Int
  | [] => cur
  | b :: rest => if b = cur ∨ b = cur + 1 then safeWalk b rest else cur

/-- Modelled from the spec (§4.2): `next_safe_offset()` fails with
`NoAckedOffsets` (here `none`) exactly when the acknowledged set is empty,
and otherwise walks the ascending sequence with `safeWalk` from its first
entry. -/
def nextSafeOffsetSpec : List Int → Option Int
  | [] => none
  | a :: rest => some (safeWalk a rest)

/-- Embedding of `Consumer.on_event_ready` (base.py lines 136-139) acting on
the `_acked` list: append the acknowledged offset, then sort ascending
(`self._acked.append(ref.offset); self._acked.sort()`). -/
def on_event_ready (acked : List Int) (offset : Int) : List Int :=
  (acked ++ [offset]).insertionSort (· ≤ ·)

/-!  ## Commit loop (src/faust/transport/base.py)  -/

/-- Embedding of `Consumer._should_commit`:
`self._current_offset is None or (offset and offset > self._current_offset)`.
An integer is truthy iff it is non-zero. -/
def should_commit (cur : Option Int) (offset : Int) : Bool :=
  match cur with
  | none => true
  | some c => decide (offset ≠ 0) && decide (c < offset)

/-- Observable outcome of running (part of) the commit loop: the value of
`_current_offset` afterwards, the offsets passed to the backend
`self._commit(offset)` call in order, and whether an uncaught exception
propagated out of the loop (terminating the coroutine). -/
structure TickResult where
  cur : Option Int
  calls : List Int
  err : Bool
deriving DecidableEq, Repr

/-- Embedding of one iteration of the `while 1` body of
`Consumer._commit_handler` (base.py lines 141-152):

```
try:
    offset = self._new_offset()
except IndexError:
    pass
else:
    if self._should_commit(offset):
        self._current_offset = offset
        await self._commit(offset)
```

`backendFails offset = true` means the backend `self._commit(offset)` call
raises; note `_current_offset` is assigned BEFORE that call, and the
exception (if any) is not caught. -/
def commitTick (backendFails : Int → Bool) (cur : Option Int)
    (acked : List Int) : TickResult :=
  match new_offset acked with
  | none => ⟨cur, [], false⟩
  | some offset =>
    if should_commit cur offset then
      ⟨some offset, [offset], backendFails offset⟩
    else ⟨cur, [], false⟩

/-- Embedding of the `while 1` loop of `Consumer._commit_handler`, run for
one tick per entry of `sched`, each entry being the snapshot of `_acked`
that the tick observes (the receive path mutates `_acked` between ticks).
An exception raised by the backend commit call is not caught anywhere in
the loop, so it propagates and the loop terminates immediately. -/
def runCommitLoop (backendFails : Int → Bool) (cur : Option Int) :
    List (List Int) → TickResult
  | [] => ⟨cur, [], false⟩
  | acked :: rest =>
    let t := commitTick backendFails cur acked
    if t.err then t
    else
      let r := runCommitLoop backendFails t.cur rest
      ⟨r.cur, t.calls ++ r.calls, r.err⟩

/-!  ## Message receive path (src/faust/transport/base.py)  -/

/-- The two decode-failure classes raised by `Consumer.to_KV`
(`KeyDecodeError`, `ValueDecodeError` from faust.exceptions). -/
inductive DecodeErr where
  | keyErr
  | valueErr
deriving DecidableEq, Repr

/-- Embedding of `Consumer.to_KV` (base.py lines 115-130).  `B` is the raw
key type of the wire message; the external codec boundary is passed in as
functions.  If a key serializer is configured, `loads` may fail, raised as
`KeyDecodeError`; otherwise the raw key is passed through (`cast(K, key)`).
Then `self.type.from_message(k, message, ...)` builds the value event, any
failure being raised as `ValueDecodeError`. -/
def to_KV {B K V : Type} (keySerializer : Option (B → Option K))
    (rawToK : B → K) (fromMessage : K → Option V) (rawKey : B) :
    Except DecodeErr (K × V) :=
  match
    (match keySerializer with
     | none => Except.ok (rawToK rawKey)
     | some dec =>
       match dec rawKey with
       | some k => Except.ok k
       | none => Except.error DecodeErr.keyErr) with
  | Except.error e => Except.error e
  | Except.ok k =>
    match fromMessage k with
    | some v => Except.ok (k, v)
    | none => Except.error DecodeErr.valueErr

/-- Runtime errors that can escape `Consumer.on_message`: the two decode
errors re-raised when no handler is registered, and the Python
`UnboundLocalError`/`NameError` raised when a local variable is read
without having been assigned. -/
inductive PyErr where
  | keyDecode
  | valueDecode
  | unboundLocal
deriving DecidableEq, Repr

/-- Observable trace of one `Consumer.on_message` call: whether each decode
error handler ran, the offsets registered with the tracker
(`track_event`), the `(k, v)` pairs passed to the application callback, and
the exception that escaped the call, if any. -/
structure MsgTrace (K V : Type) where
  keyHandlerCalled : Bool
  valueHandlerCalled : Bool
  trackedOffsets : List Int
  callbackInvocations : List (K × V)
  raised : Option PyErr
deriving DecidableEq, Repr

/-- The code that follows the `try`/`except` statement of
`Consumer.on_message`:

```
self.track_event(v, message.offset)
await self.callback(self.topic, k, v)
```

Python control flow reaches this point both when `to_KV` succeeded and when
a decode error was caught and handled; in the latter case the assignment
`k, v = self.to_KV(message)` never happened, so the locals `k` and `v` are
unbound (`kv = none`) and evaluating `v` raises `UnboundLocalError`. -/
def afterHandlers {K V : Type} (kh vh : Bool) (kv : Option (K × V))
    (offset : Int) : MsgTrace K V :=
  match kv with
  | none => ⟨kh, vh, [], [], some PyErr.unboundLocal⟩
  | some (k, v) => ⟨kh, vh, [offset], [(k, v)], none⟩

/-- Embedding of `Consumer.on_message` (base.py lines 101-113).
`hasKeyHandler` / `hasValueHandler` say whether `on_key_decode_error` /
`on_value_decode_error` were supplied at construction.  A caught decode
error with no registered handler is re-raised (`raise`); with a handler,
the handler runs with `(error, message)` and — the `try` statement having
ended — execution falls through to the tracking/dispatch code with the
locals `k`, `v` unbound. -/
def on_message {B K V : Type} (hasKeyHandler hasValueHandler : Bool)
    (keySerializer : Option (B → Option K)) (rawToK : B → K)
    (fromMessage : K → Option V) (rawKey : B) (offset : Int) :
    MsgTrace K V :=
  match to_KV keySerializer rawToK fromMessage rawKey with
  | Except.ok kv => afterHandlers false false (some kv) offset
  | Except.error DecodeErr.keyErr =>
    if hasKeyHandler then afterHandlers true false none offset
    else ⟨false, false, [], [], some PyErr.keyDecode⟩
  | Except.error DecodeErr.valueErr =>
    if hasValueHandler then afterHandlers false true none offset
    else ⟨false, false, [], [], some PyErr.valueDecode⟩

/-!  ## Consumer construction (src/faust/transport/base.py)  -/

/-- The spec's `ConfigurationError` taxonomy (§7): the construction errors
actually raised by the code — `assert callback is not None`
(`missingCallback`), `raise TypeError('Topic can specify either topics or
pattern')` (`topicsAndPattern`) — and Table's
`assert not self._coroutines` (`tableGeneratorCallback`). -/
inductive ConfigurationError where
  | missingCallback
  | topicsAndPattern
  | tableGeneratorCallback
deriving DecidableEq, Repr

/-- A backend interaction (external transport operation, spec §6). -/
inductive BackendOp where
  | commit (offset : Int)
  | send
deriving DecidableEq, Repr

/-- Embedding of the `Topic` fields read by `Consumer.__init__`:
`topics` (a collection of names, truthy iff non-empty), `pattern`
(truthy iff present) and `key_serializer`.  `N`, `P`, `S` are the opaque
types of topic names, patterns and codec ids. -/
structure TopicM (N P S : Type) where
  topics : List N
  pattern : Option P
  keySerializer : Option S

/-- The Consumer attributes assigned by a successful `Consumer.__init__`
(base.py lines 71-96).  `C` is the opaque callback type, `I` the opaque
commit-interval type. -/
structure ConsumerState (C N P S I : Type) where
  callback : C
  topics : List N
  pattern : Option P
  key_serializer : Option S
  value_serializer : S
  commit_interval : I
  dirty_events : List Int
  acked : List Int
  current_offset : Option Int

/-- Embedding of `Consumer.__init__` (base.py lines 71-96).  In order:
`assert callback is not None` (spec §7: `ConfigurationError`); resolve the
key serializer from the topic-level override falling back to the
application default (`self.topic.key_serializer or self._app.key_serializer`),
the value serializer from the application, and the commit interval from the
argument falling back to the application default; then reject a topic with
both `topics` and `pattern` truthy (`raise TypeError`, spec §7:
`ConfigurationError`); finally initialize `_dirty_events = []` and
`_acked = []` (`_current_offset` is `None` from the class attribute).
The second component lists the backend interactions performed during
construction: there are none — `__init__` only stores references. -/
def consumerInit {C N P S I : Type} (callback : Option C)
    (topic : TopicM N P S) (appKeySerializer : Option S)
    (appValueSerializer : S) (commitInterval : Option I)
    (appCommitInterval : I) :
    Except ConfigurationError (ConsumerState C N P S I) × List BackendOp :=
  match callback with
  | none => (Except.error ConfigurationError.missingCallback, [])
  | some cb =>
    let ks := topic.keySerializer.orElse fun _ => appKeySerializer
    let vs := appValueSerializer
    let ci := commitInterval.getD appCommitInterval
    if !topic.topics.isEmpty && topic.pattern.isSome then
      (Except.error ConfigurationError.topicsAndPattern, [])
    else
      (Except.ok ⟨cb, topic.topics, topic.pattern, ks, vs, ci, [], [], none⟩, [])

/-!  ## Table (src/faust/tables.py)  -/

/-- The spec's `KeyNotFound` (§4.5): the error raised by the Python dict
`self._state` on a missing key (`KeyError`). -/
inductive KeyNotFound where
  | keyNotFound
deriving DecidableEq, Repr

/-- Shapes an application processing callback can have, per the spec
(§4.5, §9): a plain single-output-per-input step, or a multi-yield/fan-out
generator. -/
inductive CallbackShape where
  | singleOutput
  | fanOutGenerator
deriving DecidableEq, Repr

/-- Modelled from the spec: `Stream.__init__` (faust/streams.py, not under
src/) records in `self._coroutines` the generator coroutines wrapped from
the processing callback; a single-output processing step yields no
`_coroutines` entries, a multi-yield/fan-out generator callback yields at
least one (§4.5, §9). -/
def coroutines_of : CallbackShape → List Unit
  | CallbackShape.singleOutput => []
  | CallbackShape.fanOutGenerator => [()]

/-- Embedding of `Table.on_init` (tables.py lines 14-16):
`assert not self._coroutines` — a Table cannot have a generator callback
(spec §7: `ConfigurationError`) — then `self._state = {}` (the empty
mapping, modelled as the everywhere-`none` function). -/
def Table.on_init {K V : Type} (shape : CallbackShape) :
    Except ConfigurationError (K → Option V) :=
  if (coroutines_of shape).isEmpty then Except.ok fun _ => none
  else Except.error ConfigurationError.tableGeneratorCallback

/-- Embedding of `Table.__setitem__` (tables.py): `self._state[key] = value`. -/
def Table.setitem {K V : Type} [DecidableEq K] (s : K → Option V) (k : K)
    (v : V) : K → Option V :=
  fun q => if q = k then some v else s q

/-- Embedding of `Table.__getitem__` (tables.py): `return self._state[key]`;
a missing key raises `KeyError` (spec: `KeyNotFound`). -/
def Table.getitem {K V : Type} (s : K → Option V) (k : K) :
    Except KeyNotFound V :=
  match s k with
  | some v => Except.ok v
  | none => Except.error KeyNotFound.keyNotFound

/-- Embedding of `Table.__delitem__` (tables.py): `del self._state[key]`;
a missing key raises `KeyError` (spec: `KeyNotFound`). -/
def Table.delitem {K V : Type} [DecidableEq K] (s : K → Option V) (k : K) :
    Except KeyNotFound (K → Option V) :=
  match s k with
  | some _ => Except.ok fun q => if q = k then none else s q
  | none => Except.error KeyNotFound.keyNotFound

/-- Embedding of `Table.on_message` (tables.py lines 18-19):
`self._state[key] = await self.process(key, value)`, with `process` the
application-supplied transform (spec §4.5). -/
def Table.on_message {K V : Type} [DecidableEq K] (process : K → V → V)
    (s : K → Option V) (k : K) (v : V) : K → Option V :=
  Table.setitem s k (process k v)

/-!  ## Lemmas about the offset scan on sorted lists  -/

lemma gapScan_of_all_eq (c : Int) :
    ∀ l : List Int, (∀ y ∈ l, y = c) → gapScan c l = none := by
  intro l
  induction l generalizing c with
  | nil => intro _; rfl
  | cons o rest ih =>
    intro h
    have ho : o = c := h o (by simp)
    subst ho
    show (if o ≠ o then some o else gapScan o rest) = none
    rw [if_neg (by simp)]
    exact ih o fun y hy => h y (by simp [hy])

lemma le_getLastD_of_sorted :
    ∀ {l : List Int}, List.Sorted (· ≤ ·) l →
      ∀ x ∈ l, ∀ d : Int, x ≤ l.getLastD d := by
  intro l
  induction l with
  | nil => intro _ x hx; simp at hx
  | cons a t ih =>
    intro hs x hx d
    rw [List.getLastD_cons]
    cases t with
    | nil =>
      simp at hx
      subst hx
      simp [List.getLastD]
    | cons b t2 =>
      rcases List.mem_cons.mp hx with rfl | hx2
      · have hab : x ≤ b := List.rel_of_sorted_cons hs b (by simp)
        have hbl := ih (List.sorted_cons.mp hs).2 b (by simp) x
        exact le_trans hab hbl
      · exact ih (List.sorted_cons.mp hs).2 x hx2 a

lemma sorted_cons_all_eq {a : Int} {t : List Int}
    (hs : List.Sorted (· ≤ ·) (a :: t))
    (hl : (a :: t).getLastD a = a) : ∀ y ∈ a :: t, y = a := by
  intro y hy
  have h1 : a ≤ y := by
    rcases List.mem_cons.mp hy with rfl | h
    · exact le_refl y
    · exact List.rel_of_sorted_cons hs y h
  have h2 : y ≤ a := by
    have := le_getLastD_of_sorted hs y hy a
    rwa [hl] at this
  exact le_antisymm h2 h1

/-- On a sorted list (the only shape `_acked` ever has, see the C10
invariant) `_new_offset` returns the FIRST element unless all elements are
equal, in which case it raises `IndexError`: the head differs from the
wrapped-around "previous" element `acked[-1]` exactly when the list is not
constant. -/
lemma new_offset_sorted {a : Int} {t : List Int}
    (hs : List.Sorted (· ≤ ·) (a :: t)) :
    new_offset (a :: t) =
      if (a :: t).getLastD a = a then none else some a := by
  by_cases h : (a :: t).getLastD a = a
  · rw [if_pos h]
    show gapScan ((a :: t).getLastD a) (a :: t) = none
    rw [h]
    exact gapScan_of_all_eq a (a :: t) (sorted_cons_all_eq hs h)
  · rw [if_neg h]
    show gapScan ((a :: t).getLastD a) (a :: t) = some a
    show (if a ≠ (a :: t).getLastD a then some a
          else gapScan a t) = some a
    rw [if_pos fun hh => h hh.symm]

/-- Inserting into a sorted list an element that is already a member
preserves the head and the last element. -/
lemma orderedInsert_shape :
    ∀ (t : List Int) (a x : Int),
      List.Sorted (· ≤ ·) (a :: t) → x ∈ a :: t →
      ∃ t2, List.orderedInsert (· ≤ ·) x (a :: t) = a :: t2 ∧
        (a :: t2).getLastD a = (a :: t).getLastD a := by
  intro t
  induction t with
  | nil =>
    intro a x _ hx
    simp at hx
    subst hx
    refine ⟨[x], ?_, rfl⟩
    simp [List.orderedInsert]
  | cons b t2 ih =>
    intro a x hs hx
    by_cases hxa : x ≤ a
    · have hax : a ≤ x := by
        rcases List.mem_cons.mp hx with rfl | h
        · exact le_refl x
        · exact List.rel_of_sorted_cons hs x h
      have hxa2 : x = a := le_antisymm hxa hax
      subst hxa2
      refine ⟨x :: b :: t2, ?_, ?_⟩
      · simp [List.orderedInsert]
      · rw [List.getLastD_cons]
    · have hx2 : x ∈ b :: t2 := by
        rcases List.mem_cons.mp hx with rfl | h
        · exact absurd (le_refl x) hxa
        · exact h
      have hs2 : List.Sorted (· ≤ ·) (b :: t2) := (List.sorted_cons.mp hs).2
      obtain ⟨t3, he, hd⟩ := ih b x hs2 hx2
      refine ⟨b :: t3, ?_, ?_⟩
      · rw [List.orderedInsert, if_neg hxa, he]
      · rw [List.getLastD_cons, List.getLastD_cons,
            List.getLastD_cons, List.getLastD_cons]
        rwa [List.getLastD_cons, List.getLastD_cons] at hd

/-- On an already sorted list, appending `x` and re-sorting is the same as
inserting `x` at its place: both results are sorted and are permutations of
each other. -/
lemma on_event_ready_eq_orderedInsert {s : List Int}
    (hs : List.Sorted (· ≤ ·) s) (x : Int) :
    on_event_ready s x = List.orderedInsert (· ≤ ·) x s :=
  List.eq_of_perm_of_sorted
    (((List.perm_insertionSort (· ≤ ·) (s ++ [x])).trans
        (List.perm_append_singleton x s)).trans
      (List.perm_orderedInsert (· ≤ ·) x s).symm)
    (List.sorted_insertionSort (· ≤ ·) (s ++ [x]))
    (hs.orderedInsert x s)

lemma sorted_on_event_ready (acked : List Int) (x : Int) :
    List.Sorted (· ≤ ·) (on_event_ready acked x) :=
  List.sorted_insertionSort (· ≤ ·) (acked ++ [x])

lemma mem_on_event_ready_self (acked : List Int) (x : Int) :
    x ∈ on_event_ready acked x :=
  ((List.perm_insertionSort (· ≤ ·) (acked ++ [x])).mem_iff).mpr (by simp)

lemma runCommitLoop_calls_mono :
    ∀ (sched : List (List Int)) (f : Int → Bool) (cur : Option Int),
      List.Pairwise (· < ·) ((runCommitLoop f cur sched).calls) ∧
      (∀ c, cur = some c →
        ∀ y ∈ (runCommitLoop f cur sched).calls, c < y) := by
  intro sched
  induction sched with
  | nil =>
    intro f cur
    exact ⟨by simp [runCommitLoop], by intro c _ y hy; simp [runCommitLoop] at hy⟩
  | cons acked rest ih =>
    intro f cur
    cases hno : new_offset acked with
    | none =>
      have hred : runCommitLoop f cur (acked :: rest) =
          ⟨(runCommitLoop f cur rest).cur, (runCommitLoop f cur rest).calls,
            (runCommitLoop f cur rest).err⟩ := by
        simp [runCommitLoop, commitTick, hno]
      rw [hred]
      exact ih f cur
    | some offset =>
      cases hsc : should_commit cur offset with
      | false =>
        have hred : runCommitLoop f cur (acked :: rest) =
            ⟨(runCommitLoop f cur rest).cur, (runCommitLoop f cur rest).calls,
              (runCommitLoop f cur rest).err⟩ := by
          simp [runCommitLoop, commitTick, hno, hsc]
        rw [hred]
        exact ih f cur
      | true =>
        have hlt : ∀ c, cur = some c → c < offset := by
          intro c hc
          subst hc
          simp [should_commit] at hsc
          exact hsc.2
        cases hbf : f offset with
        | true =>
          have hred : runCommitLoop f cur (acked :: rest) =
              ⟨some offset, [offset], true⟩ := by
            simp [runCommitLoop, commitTick, hno, hsc, hbf]
          rw [hred]
          refine ⟨by simp, ?_⟩
          intro c hc y hy
          simp at hy
          subst hy
          exact hlt c hc
        | false =>
          have hred : runCommitLoop f cur (acked :: rest) =
              ⟨(runCommitLoop f (some offset) rest).cur,
                offset :: (runCommitLoop f (some offset) rest).calls,
                (runCommitLoop f (some offset) rest).err⟩ := by
            simp [runCommitLoop, commitTick, hno, hsc, hbf]
          rw [hred]
          have hrest := ih f (some offset)
          constructor
          · exact List.pairwise_cons.mpr
              ⟨fun y hy => hrest.2 offset rfl y hy, hrest.1⟩
          · intro c hc y hy
            rcases List.mem_cons.mp hy with rfl | hy2
            · exact hlt c hc
            · exact lt_trans (hlt c hc) (hrest.2 offset rfl y hy2)

/-!  ## Claim theorems  -/

/-- Claim C1 (code_bug evidence).  The spec algorithm (`nextSafeOffsetSpec`,
the claim's `next_safe_offset`) returns 6 on the acknowledged offsets
[5, 6, 8] and the maximum 7 on the contiguous [5, 6, 7]; the code's
`_new_offset` returns 5 in both cases, because its first loop iteration
compares `acked[0]` against the wrapped-around `acked[-1]` and breaks
whenever head and last differ.  Only the first-two-entries-gap conjunct of
the claim holds of the code (on [5, 8] it does return the first entry 5). -/
theorem C1_new_offset_diverges_from_safe_offset :
    new_offset [5, 6, 8] = some 5 ∧ nextSafeOffsetSpec [5, 6, 8] = some 6 ∧
    new_offset [5, 6, 7] = some 5 ∧ nextSafeOffsetSpec [5, 6, 7] = some 7 ∧
    new_offset [5, 8] = some 5 ∧ nextSafeOffsetSpec [5, 8] = some 5 := by
  decide

/-- Claim C2 (code_bug evidence).  `_new_offset` does raise `IndexError`
(the spec's `NoAckedOffsets`, here `none`) on the empty acknowledged set,
but it ALSO raises it on the non-empty set [5] — where the spec algorithm
returns 5 — refuting "when and only when the acknowledged set is empty".
The second half of the claim holds: a commit-loop tick that observes the
failure skips the tick without calling the backend commit. -/
theorem C2_new_offset_fails_on_nonempty :
    new_offset [] = none ∧
    new_offset [5] = none ∧ nextSafeOffsetSpec [5] = some 5 ∧
    new_offset [5, 5] = none ∧ nextSafeOffsetSpec [5, 5] = some 5 ∧
    commitTick (fun _ => false) none [5] = ⟨none, [], false⟩ := by
  decide

/-- Claim C3 (confirmed).  Acknowledging the same offset a second time is
idempotent with respect to `_new_offset`: from any prior `_acked` list,
recording `x` twice (`on_event_ready` twice) yields the same
`_new_offset` result — including the raised-`IndexError` case — as
recording it once. -/
theorem C3_duplicate_ack_idempotent (acked : List Int) (x : Int) :
    new_offset (on_event_ready (on_event_ready acked x) x) =
      new_offset (on_event_ready acked x) := by
  have hs := sorted_on_event_ready acked x
  have hx := mem_on_event_ready_self acked x
  obtain ⟨a, t, he⟩ : ∃ a t, on_event_ready acked x = a :: t := by
    cases h : on_event_ready acked x with
    | nil => rw [h] at hx; simp at hx
    | cons a t => exact ⟨a, t, rfl⟩
  rw [he] at hs hx ⊢
  rw [on_event_ready_eq_orderedInsert hs x]
  obtain ⟨t2, he2, hd2⟩ := orderedInsert_shape t a x hs hx
  have hs2 : List.Sorted (· ≤ ·) (a :: t2) := by
    rw [← he2]
    exact hs.orderedInsert x (a :: t)
  rw [he2, new_offset_sorted hs, new_offset_sorted hs2, hd2]

/-- Claim C4 (confirmed).  In every execution of the commit loop — any
backend failure behavior, any sequence of `_acked` snapshots, starting from
the constructed state `_current_offset = None` — the sequence of offsets
passed to the backend `_commit` call is strictly increasing, so the backend
commit is never called with an offset less than or equal to the previously
committed one; and the guard `_should_commit` passes exactly when there is
no prior commit, or the new offset is non-zero (truthy) and strictly
greater than the prior committed offset. -/
theorem C4_commit_never_regresses :
    (∀ (f : Int → Bool) (sched : List (List Int)),
      List.Pairwise (· < ·) ((runCommitLoop f none sched).calls)) ∧
    (∀ (cur : Option Int) (offset : Int),
      should_commit cur offset = true ↔
        cur = none ∨ (offset ≠ 0 ∧ ∃ c, cur = some c ∧ c < offset)) := by
  constructor
  · intro f sched
    exact (runCommitLoop_calls_mono sched f none).1
  · intro cur offset
    cases cur with
    | none => simp [should_commit]
    | some c =>
      simp [should_commit]

/-- Claim C5 (counterexample).  With a backend whose commit call fails, a
schedule of two ticks each observing acked snapshot [1, 2] produces exactly
ONE backend call: the loop does not retry on its next tick — the uncaught
exception terminates it — refuting "the commit loop retries on its next
tick ... rather than terminating". -/
theorem C5_no_retry_on_backend_failure :
    (runCommitLoop (fun _ => true) none [[1, 2], [1, 2]]).calls = [1] ∧
    ¬ 2 ≤ (runCommitLoop (fun _ => true) none [[1, 2], [1, 2]]).calls.length ∧
    (runCommitLoop (fun _ => true) none [[1, 2], [1, 2]]).err = true := by
  decide

/-- Claim C5 (amended).  If on some tick the backend commit call fails, the
failure is surfaced — the exception propagates out of the commit loop — but
the loop then terminates with no further backend calls regardless of the
remaining ticks, and `_current_offset` has already been advanced to the
failed offset before the call. -/
theorem C5_commit_failure_terminates_loop (f : Int → Bool) (cur : Option Int)
    (acked : List Int) (rest : List (List Int)) (offset : Int)
    (h1 : new_offset acked = some offset)
    (h2 : should_commit cur offset = true)
    (h3 : f offset = true) :
    runCommitLoop f cur (acked :: rest) = ⟨some offset, [offset], true⟩ := by
  simp [runCommitLoop, commitTick, h1, h2, h3]

/-- Witness for `C5_commit_failure_terminates_loop` at a concrete input. -/
theorem C5_commit_failure_witness :
    new_offset [1, 2] = some 1 ∧ should_commit none 1 = true ∧
    (fun _ : Int => true) 1 = true ∧
    runCommitLoop (fun _ => true) none [[1, 2], [3, 4]] = ⟨some 1, [1], true⟩ :=
  ⟨by decide, by decide, rfl,
    C5_commit_failure_terminates_loop (fun _ => true) none [1, 2] [[3, 4]] 1
      (by decide) (by decide) rfl⟩

/-- Claim C6 (code_bug evidence), with raw key, key and value types
instantiated to `Nat`.  When no handler is supplied, the decode error
propagates to the caller of `on_message` and the application callback is
never invoked — those conjuncts of the claim hold.  But when a handler IS
supplied, after the handler is invoked the code falls through to
`self.track_event(v, ...)` with the local `v` unbound, raising
`UnboundLocalError`, so processing does NOT "continue without raising"
(the message is still not tracked and the callback is still not invoked).
The successful-decode path tracks the offset and invokes the callback. -/
theorem C6_decode_error_paths :
    on_message (B := Nat) (V := Nat) false false
        (some fun _ => (none : Option Nat)) id (fun k => some k) 0 3 =
      ⟨false, false, [], [], some PyErr.keyDecode⟩ ∧
    on_message (B := Nat) (V := Nat) true false
        (some fun _ => (none : Option Nat)) id (fun k => some k) 0 3 =
      ⟨true, false, [], [], some PyErr.unboundLocal⟩ ∧
    on_message (B := Nat) (V := Nat) false false
        none id (fun _ => (none : Option Nat)) 0 3 =
      ⟨false, false, [], [], some PyErr.valueDecode⟩ ∧
    on_message (B := Nat) (V := Nat) false true
        none id (fun _ => (none : Option Nat)) 0 3 =
      ⟨false, true, [], [], some PyErr.unboundLocal⟩ ∧
    on_message (B := Nat) (V := Nat) false false
        none id (fun k => some (k + 1)) 0 3 =
      ⟨false, false, [3], [(0, 1)], none⟩ := by
  decide

/-- Claim C7 (confirmed, with the spec's §7 naming under which the
construction errors — the failed `assert callback is not None` and the
`TypeError` for a topic with both `topics` and `pattern` — are the spec's
`ConfigurationError`).  Construction fails when the callback is absent;
it fails with the topics-and-pattern error whenever both are truthy; and in
every case the list of backend interactions performed by construction is
empty.  Types are instantiated to `Nat`. -/
theorem C7_construction_validates :
    (∀ (t : TopicM Nat Nat Nat) (u : Option Nat) (v : Nat)
       (w : Option Nat) (z : Nat),
      consumerInit (C := Nat) (I := Nat) none t u v w z =
        (Except.error ConfigurationError.missingCallback, [])) ∧
    (∀ (b : Nat) (t : TopicM Nat Nat Nat) (u : Option Nat) (v : Nat)
       (w : Option Nat) (z : Nat),
      t.topics ≠ [] → t.pattern.isSome = true →
      consumerInit (some b) t u v w z =
        (Except.error ConfigurationError.topicsAndPattern, [])) := by
  constructor
  · intro t u v w z
    rfl
  · intro b t u v w z h1 h2
    have hcond : (!t.topics.isEmpty && t.pattern.isSome) = true := by
      cases ht : t.topics with
      | nil => exact absurd ht h1
      | cons a l => simp [h2]
    simp [consumerInit, hcond]

/-- Witness for `C7_construction_validates` at a concrete topic having both
`topics` and `pattern` set. -/
theorem C7_construction_witness :
    (⟨[0], some 1, none⟩ : TopicM Nat Nat Nat).topics ≠ [] ∧
    (⟨[0], some 1, none⟩ : TopicM Nat Nat Nat).pattern.isSome = true ∧
    consumerInit (some 5) (⟨[0], some 1, none⟩ : TopicM Nat Nat Nat)
        none 7 none 9 =
      (Except.error ConfigurationError.topicsAndPattern, []) :=
  ⟨by decide, by decide,
    C7_construction_validates.2 5 ⟨[0], some 1, none⟩ none 7 none 9
      (by decide) (by decide)⟩

/-- The Table state reached by `set('a', 1)` followed by processing the
message `(key = 'a', value = 2)` with the identity `process` transform. -/
def c8_state : Char → Option Int :=
  Table.on_message (fun _ v => v) (Table.setitem (fun _ => none) 'a' 1) 'a' 2

/-- Claim C8 (confirmed).  Every received message sets
`state[key] = process(key, value)`, overwriting any prior value; in the
claim's scenario (`process` = identity) `get('a')` then returns 2; deleting
`'a'` and reading it back fails with `KeyNotFound`; and in general `get`
and `delete` on a missing key fail with `KeyNotFound`. -/
theorem C8_table_state_semantics :
    (∀ (p : Char → Int → Int) (s : Char → Option Int) (k : Char) (v : Int),
      Table.on_message p s k v k = some (p k v)) ∧
    Table.getitem c8_state 'a' = Except.ok 2 ∧
    (Table.delitem c8_state 'a').map (fun s => Table.getitem s 'a') =
      Except.ok (Except.error KeyNotFound.keyNotFound) ∧
    (∀ (s : Char → Option Int) (k : Char), s k = none →
      Table.getitem s k = Except.error KeyNotFound.keyNotFound ∧
      Table.delitem s k = Except.error KeyNotFound.keyNotFound) := by
  refine ⟨?_, rfl, rfl, ?_⟩
  · intro p s k v
    simp [Table.on_message, Table.setitem]
  · intro s k h
    exact ⟨by simp [Table.getitem, h], by simp [Table.delitem, h]⟩

/-- Witness for `C8_table_state_semantics` on the empty table, whose every
key is missing. -/
theorem C8_table_witness :
    (fun _ : Char => (none : Option Int)) 'z' = none ∧
    (Table.getitem (fun _ : Char => (none : Option Int)) 'z' =
        Except.error KeyNotFound.keyNotFound ∧
      Table.delitem (fun _ : Char => (none : Option Int)) 'z' =
        Except.error KeyNotFound.keyNotFound) :=
  ⟨rfl, C8_table_state_semantics.2.2.2 (fun _ => none) 'z' rfl⟩

/-- Claim C9 (confirmed against the spec-modelled `_coroutines` shape,
since `Stream` itself is not under src/).  `Table.on_init` rejects a
multi-yield/fan-out generator callback shape — `assert not
self._coroutines` fails, the spec's `ConfigurationError` — and accepts a
single-output processing step, initializing the empty state. -/
theorem C9_table_rejects_fanout_callback :
    Table.on_init (K := Nat) (V := Nat) CallbackShape.fanOutGenerator =
      Except.error ConfigurationError.tableGeneratorCallback ∧
    Table.on_init (K := Nat) (V := Nat) CallbackShape.singleOutput =
      Except.ok (fun _ => none) :=
  ⟨rfl, rfl⟩

/-- Claim C10 (confirmed).  The `_acked` list is empty at construction
(`consumerInit` initializes `_acked = []` and `_dirty_events = []`), and
after any sequence of acknowledgments — each `on_event_ready` appending the
offset and re-sorting — the list observed by any reader is sorted
ascending. -/
theorem C10_acked_always_sorted :
    (∀ (offs : List Int),
      List.Sorted (· ≤ ·) (offs.foldl on_event_ready [])) ∧
    (∀ (b : Nat) (t : TopicM Nat Nat Nat) (u : Option Nat) (v : Nat)
       (w : Option Nat) (z : Nat) (s : ConsumerState Nat Nat Nat Nat Nat),
      (consumerInit (some b) t u v w z).1 = Except.ok s →
      s.acked = [] ∧ s.dirty_events = []) := by
  constructor
  · intro offs
    have key : ∀ (os acc : List Int), List.Sorted (· ≤ ·) acc →
        List.Sorted (· ≤ ·) (os.foldl on_event_ready acc) := by
      intro os
      induction os with
      | nil => intro acc h; exact h
      | cons o rest ih => intro acc _; exact ih _ (sorted_on_event_ready acc o)
    exact key offs [] (by simp)
  · intro b t u v w z s h
    by_cases hc : (!t.topics.isEmpty && t.pattern.isSome) = true
    · simp [consumerInit, hc] at h
    · simp [consumerInit, hc] at h
      rw [← h]
      exact ⟨rfl, rfl⟩

/-- Witness for `C10_acked_always_sorted` at a concrete acknowledgment
sequence and a concrete successful construction. -/
theorem C10_acked_witness :
    List.Sorted (· ≤ ·) (([5, 3, 4] : List Int).foldl on_event_ready []) ∧
    ((consumerInit (some 0) (⟨[2], none, none⟩ : TopicM Nat Nat Nat)
          none 7 none 9).1 =
        Except.ok (⟨0, [2], none, none, 7, 9, [], [], none⟩ :
          ConsumerState Nat Nat Nat Nat Nat) ∧
      (⟨0, [2], none, none, 7, 9, [], [], none⟩ :
          ConsumerState Nat Nat Nat Nat Nat).acked = [] ∧
      (⟨0, [2], none, none, 7, 9, [], [], none⟩ :
          ConsumerState Nat Nat Nat Nat Nat).dirty_events = []) :=
  ⟨C10_acked_always_sorted.1 [5, 3, 4],
    rfl,
    C10_acked_always_sorted.2 0 ⟨[2], none, none⟩ none 7 none 9
      ⟨0, [2], none, none, 7, 9, [], [], none⟩ rfl⟩
